import Mathlib

/-
Verification of the RaceOracle dashboard (React + Electron).

The repository is a presentational dashboard; the behaviour under
verification lives in:
  * `src/components/RaceVisualizer/RaceVisualizer.jsx` — the `AppLayout`
    component's `setInterval` tick that animates the mock agents, and the
    `handleZoom` clamp of `RaceVisualizer`;
  * `src/components/Leaderboard/Leaderboard.jsx` — the standings sort and the
    row rendering;
  * `src/components/ScenarioConfigModal/ScenarioConfigModal.jsx` — the agent
    list edited in the modal and the configuration submitted on Start;
  * the unnamed polling client (`App`) — the `/simulation/start` effect and
    the 200 ms `/simulation/state` poll.

JavaScript numbers are modelled as rationals (ℚ); the JS `%` operator is
`jsRem` below (remainder with the sign of the dividend, i.e. truncated
division).  `Math.random()` draws are passed in explicitly as rational
oracle values, which makes the dependence of the tick on the process-wide
random source visible in the types.  The simulation engine and HTTP server
described by the spec are not part of this repository; the two definitions
marked `Modelled from the spec:` stand in for them.
-/

/-- Truncation of a rational toward zero, `Math.trunc` / the quotient of the
JS `%` semantics.  Written on `num`/`den` so that it evaluates by kernel
reduction (`q.den` is positive, so both integer divisions below are
divisions of nonnegative integers). -/
def ratTrunc (q : ℚ) : ℤ :=
  if 0 ≤ q.num then q.num / (q.den : ℤ) else -((-q.num) / (q.den : ℤ))

/-- The JavaScript `%` operator on numbers: `a % m = a - m * trunc (a / m)`,
a remainder that carries the sign of the dividend `a`. -/
def jsRem (a m : ℚ) : ℚ := a - m * (ratTrunc (a / m) : ℚ)

/-- An agent record as held in `AppLayout`'s `agents` state (all fields
present; JS numbers modelled as ℚ). -/
structure Agent where
  id : String
  name : String
  color : String
  x : ℚ
  y : ℚ
  heading : ℚ
  speed : ℚ
  lap : ℚ
  lapTime : ℚ
  delta : ℚ
  status : String
deriving DecidableEq

/-- The four `Math.random()` values one agent's update consumes in one tick
of `AppLayout`'s `setInterval` callback, in source order: the draws for
`x`, `y`, `heading` and `speed`. -/
structure Rand4 where
  rx : ℚ
  ry : ℚ
  rh : ℚ
  rs : ℚ
deriving DecidableEq

/-- One tick of the `AppLayout` animation for a single agent:
`x: (x + r*10 - 5) % 500`, `y: (y + r*10 - 5) % 400`,
`heading: (heading + r*5 - 2.5) % 360`,
`speed: Math.max(160, Math.min(200, speed + r*4 - 2))`. -/
def tickAgent (a : Agent) (d : Rand4) : Agent :=
  { a with
    x := jsRem (a.x + d.rx * 10 - 5) 500
    y := jsRem (a.y + d.ry * 10 - 5) 400
    heading := jsRem (a.heading + d.rh * 5 - 2.5) 360
    speed := max 160 (min 200 (a.speed + d.rs * 4 - 2)) }

/-- The trajectory of one agent under repeated ticks, the tick at index `n`
consuming the draws `r n`. -/
def iterTicks (a : Agent) (r : ℕ → Rand4) : ℕ → Agent
  | 0 => a
  | n + 1 => tickAgent (iterTicks a r n) (r n)

/-- One tick of the `AppLayout` animation over the whole agent list
(`prevAgents.map(...)`), agent `i` consuming the draws `d i`; `i` starts
at the given index. -/
def tickAgentsFrom (d : ℕ → Rand4) : ℕ → List Agent → List Agent
  | _, [] => []
  | i, a :: rest => tickAgent a (d i) :: tickAgentsFrom d (i + 1) rest

/-- One tick of the `AppLayout` animation over the whole agent list. -/
def tickAgents (as : List Agent) (d : ℕ → Rand4) : List Agent :=
  tickAgentsFrom d 0 as

/-- `N` ticks of the `AppLayout` animation; the draw oracle `r` gives the
`Math.random()` values consumed at tick `t` by agent `i` as `r t i`. -/
def runN (as : List Agent) (r : ℕ → ℕ → Rand4) : ℕ → List Agent
  | 0 => as
  | n + 1 => tickAgents (runN as r n) (r n)

/-- The first of the three mock agents `AppLayout` starts with. -/
def agentA1 : Agent :=
  ⟨"A1", "AlphaBot", "#00FFD1", 150, 150, 45, 180, 2, 65.34, 0, "Active"⟩

/-- Second mock agent of `AppLayout`. -/
def agentA2 : Agent :=
  ⟨"A2", "BetaAgent", "#FFB400", 250, 200, 90, 175, 2, 66.12, 0.78, "Active"⟩

/-- Third mock agent of `AppLayout`. -/
def agentA3 : Agent :=
  ⟨"A3", "GammaBot", "#FF6B9D", 180, 280, 225, 168, 1, 64.89, -0.45, "Warning"⟩

/-- The initial `agents` state of `AppLayout`. -/
def mockAgents : List Agent := [agentA1, agentA2, agentA3]

/-- The comparator of `Leaderboard.jsx`:
`(a, b) => a.lap - b.lap || a.lapTime - b.lapTime` — the JS `||` returns its
first operand when that operand is a nonzero number. -/
def jsCompare (a b : Agent) : ℚ :=
  if a.lap - b.lap ≠ 0 then a.lap - b.lap else a.lapTime - b.lapTime

/-- The sort order induced by the comparator: `a` may come before `b`
exactly when the comparator is nonpositive. -/
def lbLe (a b : Agent) : Prop := jsCompare a b ≤ 0

instance : DecidableRel lbLe := fun a b => by unfold lbLe; infer_instance

instance : IsTotal Agent lbLe :=
  ⟨fun a b => by
    unfold lbLe jsCompare
    by_cases h1 : a.lap - b.lap ≠ 0
    · rw [if_pos h1, if_pos (show b.lap - a.lap ≠ 0 by intro hh; exact h1 (by linarith))]
      rcases le_total a.lap b.lap with h | h
      · exact Or.inl (by linarith)
      · exact Or.inr (by linarith)
    · push_neg at h1
      rw [if_neg (not_not_intro h1),
        if_neg (not_not_intro (show b.lap - a.lap = 0 by linarith))]
      rcases le_total a.lapTime b.lapTime with h | h
      · exact Or.inl (by linarith)
      · exact Or.inr (by linarith)⟩

instance : IsTrans Agent lbLe :=
  ⟨fun a b c hab hbc => by
    unfold lbLe jsCompare at hab hbc ⊢
    by_cases h1 : a.lap - b.lap ≠ 0
    · rw [if_pos h1] at hab
      have hab' : a.lap - b.lap < 0 := lt_of_le_of_ne hab h1
      by_cases h2 : b.lap - c.lap ≠ 0
      · rw [if_pos h2] at hbc
        have hbc' : b.lap - c.lap < 0 := lt_of_le_of_ne hbc h2
        rw [if_pos (show a.lap - c.lap ≠ 0 by intro hh; linarith)]
        linarith
      · push_neg at h2
        rw [if_pos (show a.lap - c.lap ≠ 0 by intro hh; linarith)]
        linarith
    · push_neg at h1
      rw [if_neg (not_not_intro h1)] at hab
      by_cases h2 : b.lap - c.lap ≠ 0
      · rw [if_pos h2] at hbc
        have hbc' : b.lap - c.lap < 0 := lt_of_le_of_ne hbc h2
        rw [if_pos (show a.lap - c.lap ≠ 0 by intro hh; linarith)]
        linarith
      · push_neg at h2
        rw [if_neg (not_not_intro h2)] at hbc
        rw [if_neg (not_not_intro (show a.lap - c.lap = 0 by linarith))]
        linarith⟩

/-- `[...agents].sort(comparator)` of `Leaderboard.jsx`.  `Array.prototype.sort`
is stable and, for a total preorder, every stable sort returns the same list,
so it is modelled by stable insertion sort with respect to `lbLe`. -/
def sortedAgents (agents : List Agent) : List Agent :=
  List.insertionSort lbLe agents

/-- An agent used to exhibit the behaviour of the sort on exact ties: id
`"B"`, lap 1, lapTime 60. -/
def agentT1 : Agent :=
  ⟨"B", "TieOne", "#111111", 0, 0, 0, 170, 1, 60, 0, "Active"⟩

/-- Tie partner of `agentT1` with the smaller id `"A"` and the same lap and
lapTime. -/
def agentT2 : Agent :=
  ⟨"A", "TieTwo", "#222222", 0, 0, 0, 170, 1, 60, 0, "Active"⟩

/-- `handleZoom` of `RaceVisualizer.jsx`:
`setZoom(prev => Math.max(0.5, Math.min(3, prev + (direction === 'in' ? 0.2 : -0.2))))`.
`inDir` is `direction === 'in'`. -/
def handleZoom (inDir : Bool) (z : ℚ) : ℚ :=
  max 0.5 (min 3 (z + if inDir then 0.2 else -0.2))

/-- The zoom factor after a sequence of clicks, starting from the initial
`useState(1)`. -/
def zoomAfter (clicks : List Bool) : ℚ :=
  clicks.foldl (fun z d => handleZoom d z) 1

/-- An agent row of the `ScenarioConfigModal` agent list: `id`, `name` and
`param` (the strategy). -/
structure ModalAgent where
  id : String
  name : String
  param : String
deriving DecidableEq

/-- The modal's initial `useState` agent list. -/
def initialModalAgents : List ModalAgent :=
  [⟨"a1", "AlphaBot", "aggressive"⟩,
    ⟨"a2", "BetaAgent", "balanced"⟩,
    ⟨"a3", "GammaBot", "conservative"⟩]

/-- `handleRemoveAgent` of the modal: `agents.filter(a => a.id !== id)`. -/
def handleRemoveAgent (agents : List ModalAgent) (i : String) : List ModalAgent :=
  agents.filter fun a => a.id ≠ i

/-- The configuration object the modal submits. -/
structure ModalConfig where
  track : String
  agents : List ModalAgent
deriving DecidableEq

/-- `handleStart` of the modal: `onStart(...)` receives the selected track
and the current agent list — no validation is performed before submitting. -/
def handleStart (selectedTrack : String) (agents : List ModalAgent) : ModalConfig :=
  ⟨selectedTrack, agents⟩

/-- The modal's track options (their `value` fields). -/
def tracks : List String := ["monaco", "silverstone", "spa", "monza"]

/-- The configuration-validation error taxonomy of the spec. -/
inductive ConfigurationError where
  | invalidTrack
  | duplicateAgentId
  | emptyAgentList
deriving DecidableEq

/-- Modelled from the spec: the engine's `start()` validation — the
simulation engine is not part of this repository; per the spec, `start()`
rejects an invalid track id, a duplicate agent id, or an empty agent list
with `ConfigurationError`, never entering a half-initialized state (on
success the agent store holds exactly the configured agents). -/
def startEngine (cfg : ModalConfig) : Except ConfigurationError (List ModalAgent) :=
  if cfg.agents.isEmpty then .error .emptyAgentList
  else if tracks.contains cfg.track then
    if (cfg.agents.map ModalAgent.id).Nodup then .ok cfg.agents
    else .error .duplicateAgentId
  else .error .invalidTrack

/-- Modelled from the spec: the HTTP status of `POST /simulation/start` —
the server is not part of this repository; per the spec it answers 200 with
the initial snapshot, or 409 if the simulation is already running. -/
def startStatus (running : Bool) : ℕ :=
  if running then 409 else 200

/-- The polling client's `simStatus` after its start effect: the `try` block
awaits `fetch` and then unconditionally sets `'running'`; only a rejected
fetch (network error) reaches the `catch` that sets `'error'`.  The HTTP
status code of a resolved response is never inspected. -/
def statusAfterStart (r : Except Unit ℕ) : String :=
  match r with
  | .error _ => "error"
  | .ok _ => "running"

/-- An agent record as the `Leaderboard` receives it from an arbitrary
caller: every field the component reads may be absent (`undefined` in JS),
except `id` which both callers always set. -/
structure LbAgent where
  id : String
  name : Option String
  color : Option String
  x : Option ℚ
  y : Option ℚ
  heading : Option ℚ
  speed : Option ℚ
  lap : Option ℚ
  lapTime : Option ℚ
  delta : Option ℚ
  status : Option String
deriving DecidableEq

/-- The runtime failure mode of rendering: calling a method on `undefined`. -/
inductive RenderError where
  | typeError
deriving DecidableEq

/-- The data of one rendered leaderboard row. -/
structure LbRow where
  name : Option String
  lap : Option ℚ
  lapTime : ℚ
  delta : Option ℚ
  speed : Option ℚ
  statusClass : String
deriving DecidableEq

/-- One `<tr>` of `Leaderboard.jsx`.  `agent.lapTime.toFixed(2)` and
`agent.status.toLowerCase()` are method calls and throw a `TypeError` when
the receiver is `undefined`; `agent.delta.toFixed(2)` is guarded by
`agent.delta !== undefined`; the plainly interpolated fields (`name`, `lap`,
`speed`) render as blank when `undefined` and never throw.  The string
produced by `toFixed`/`toLowerCase` is presentational; the row keeps the
underlying values. -/
def renderRow (a : LbAgent) : Except RenderError LbRow :=
  match a.lapTime, a.status with
  | some t, some s => .ok ⟨a.name, a.lap, t, a.delta, a.speed, s⟩
  | _, _ => .error .typeError

/-- Rendering the `Leaderboard` body over a list of agent records.  The JSX
sorts the list first; the comparator only computes arithmetic (never
throwing, though its result is implementation-defined when `lap`/`lapTime`
are `undefined`, since the comparator then returns `NaN`), so whether
rendering throws does not depend on the order and the rows are produced here
in list order. -/
def renderLeaderboard : List LbAgent → Except RenderError (List LbRow)
  | [] => .ok []
  | a :: rest => do
    let row ← renderRow a
    let rows ← renderLeaderboard rest
    pure (row :: rows)

/-- The agent record the polling client (`App`) constructs from a poll:
only `id`, `x`, `y`, `color` and `heading` are set. -/
def pollClientAgent : LbAgent :=
  ⟨"A1", none, some "#00FFD1", some 150, some 150, some 45,
    none, none, none, none, none⟩

/-- The mock agent `A1` of `AppLayout` as a full leaderboard record. -/
def lbAgentA1 : LbAgent :=
  ⟨"A1", some "AlphaBot", some "#00FFD1", some 150, some 150, some 45,
    some 180, some 2, some 65.34, some 0, some "Active"⟩

/-- A record with every field present except `lap`, on which rendering
still succeeds. -/
def lbAgentNoLap : LbAgent :=
  ⟨"L1", some "NoLap", some "#ffffff", some 0, some 0, some 0,
    some 170, none, some 60, some 0, some "Active"⟩

/-- An agent record as the polling client stores it for display: the poll
callback keeps `id`, `x`, `y`, `color` and `heading` of each received
agent. -/
structure WireAgent where
  id : String
  x : ℚ
  y : ℚ
  color : String
  heading : ℚ
deriving DecidableEq

/-- The projection the poll callback applies to each received agent. -/
def toDisplayAgent (a : WireAgent) : WireAgent :=
  ⟨a.id, a.x, a.y, a.color, a.heading⟩

/-- A parsed `/simulation/state` response body: either field may be absent. -/
structure PollData where
  agents : Option (List WireAgent)
  event_log : Option (List String)

/-- The client state the poll callback may update. -/
structure ClientState where
  agents : List WireAgent
  eventLog : List String
deriving DecidableEq

/-- One execution of the poll callback of `App`: a rejected fetch or failed
JSON parse lands in the `catch` (state untouched); a parsed body must pass
`data && data.agents` before any state is set; on success the agents are
projected and the event log becomes `data.event_log || []`. -/
def pollStep (s : ClientState) (r : Except Unit (Option PollData)) : ClientState :=
  match r with
  | .error _ => s
  | .ok none => s
  | .ok (some d) =>
    match d.agents with
    | none => s
    | some l => ⟨l.map toDisplayAgent, d.event_log.getD []⟩

theorem ratTrunc_sub_bounds (q : ℚ) :
    -1 < q - (ratTrunc q : ℚ) ∧ q - (ratTrunc q : ℚ) < 1 := by
  have hd : (0 : ℤ) < (q.den : ℤ) := by exact_mod_cast q.pos
  have hd' : (0 : ℚ) < ((q.den : ℤ) : ℚ) := by exact_mod_cast hd
  have hnum : (q.num : ℚ) = q * ((q.den : ℤ) : ℚ) := by
    have h := Rat.num_div_den q
    rw [div_eq_iff (Nat.cast_ne_zero.mpr q.den_nz)] at h
    exact_mod_cast h
  by_cases hn : 0 ≤ q.num
  · have ht : ratTrunc q = q.num / (q.den : ℤ) := if_pos hn
    have hmod := Int.ediv_add_emod q.num (q.den : ℤ)
    have h0 : (0 : ℚ) ≤ ((q.num % (q.den : ℤ) : ℤ) : ℚ) := by
      exact_mod_cast Int.emod_nonneg q.num (by omega)
    have h1 : ((q.num % (q.den : ℤ) : ℤ) : ℚ) < ((q.den : ℤ) : ℚ) := by
      exact_mod_cast Int.emod_lt_of_pos q.num hd
    have hmodQ : ((q.den : ℤ) : ℚ) * ((q.num / (q.den : ℤ) : ℤ) : ℚ)
        + ((q.num % (q.den : ℤ) : ℤ) : ℚ) = (q.num : ℚ) := by
      exact_mod_cast congrArg (fun z : ℤ => (z : ℚ)) hmod
    have hqt : q - (ratTrunc q : ℚ) = ((q.num % (q.den : ℤ) : ℤ) : ℚ) / ((q.den : ℤ) : ℚ) := by
      rw [ht, eq_div_iff (ne_of_gt hd')]
      nlinarith [hnum, hmodQ]
    constructor
    · rw [hqt]; linarith [div_nonneg h0 hd'.le]
    · rw [hqt]; exact (div_lt_one hd').mpr h1
  · have ht : ratTrunc q = -((-q.num) / (q.den : ℤ)) := if_neg hn
    have hmod := Int.ediv_add_emod (-q.num) (q.den : ℤ)
    have h0 : (0 : ℚ) ≤ (((-q.num) % (q.den : ℤ) : ℤ) : ℚ) := by
      exact_mod_cast Int.emod_nonneg (-q.num) (by omega)
    have h1 : (((-q.num) % (q.den : ℤ) : ℤ) : ℚ) < ((q.den : ℤ) : ℚ) := by
      exact_mod_cast Int.emod_lt_of_pos (-q.num) hd
    have hmodQ : ((q.den : ℤ) : ℚ) * (((-q.num) / (q.den : ℤ) : ℤ) : ℚ)
        + (((-q.num) % (q.den : ℤ) : ℤ) : ℚ) = -(q.num : ℚ) := by
      exact_mod_cast congrArg (fun z : ℤ => (z : ℚ)) hmod
    have hqt : q - (ratTrunc q : ℚ)
        = -((((-q.num) % (q.den : ℤ) : ℤ) : ℚ) / ((q.den : ℤ) : ℚ)) := by
      rw [ht, Int.cast_neg, sub_neg_eq_add, ← neg_div, eq_div_iff (ne_of_gt hd')]
      nlinarith [hnum, hmodQ]
    constructor
    · rw [hqt]
      have : (((-q.num) % (q.den : ℤ) : ℤ) : ℚ) / ((q.den : ℤ) : ℚ) < 1 :=
        (div_lt_one hd').mpr h1
      linarith
    · rw [hqt]
      have : 0 ≤ (((-q.num) % (q.den : ℤ) : ℤ) : ℚ) / ((q.den : ℤ) : ℚ) :=
        div_nonneg h0 hd'.le
      linarith

theorem jsRem_bounds (a : ℚ) {m : ℚ} (hm : 0 < m) :
    -m < jsRem a m ∧ jsRem a m < m := by
  have h := ratTrunc_sub_bounds (a / m)
  have hmne : m ≠ 0 := ne_of_gt hm
  have hrem : jsRem a m = m * (a / m - (ratTrunc (a / m) : ℚ)) := by
    unfold jsRem
    field_simp
  constructor
  · rw [hrem]; nlinarith [h.1, h.2]
  · rw [hrem]; nlinarith [h.1, h.2]

theorem tickAgentsFrom_congr (d1 d2 : ℕ → Rand4) (hd : ∀ i, d1 i = d2 i) :
    ∀ (j : ℕ) (l : List Agent), tickAgentsFrom d1 j l = tickAgentsFrom d2 j l
  | _, [] => rfl
  | j, a :: rest => by
    rw [tickAgentsFrom, tickAgentsFrom, hd j,
      tickAgentsFrom_congr d1 d2 hd (j + 1) rest]

/-- C7: one tick of the per-tick update leaves `lap` unchanged, so the lap
count after the tick is greater than or equal to the lap count before it
(the `AppLayout` animation never writes the `lap` field). -/
theorem lap_never_decreases (a : Agent) (d : Rand4) : a.lap ≤ (tickAgent a d).lap :=
  le_refl a.lap

/-- C3: starting with `speed` in `[160, 200]`, after any number of ticks of
the per-tick update the speed is still in `[160, 200]` — the update clamps
with `Math.max(160, Math.min(200, ...))`. -/
theorem speed_stays_bounded (a : Agent) (r : ℕ → Rand4) (n : ℕ)
    (h1 : 160 ≤ a.speed) (h2 : a.speed ≤ 200) :
    160 ≤ (iterTicks a r n).speed ∧ (iterTicks a r n).speed ≤ 200 := by
  induction n with
  | zero => exact ⟨h1, h2⟩
  | succ n ih => exact ⟨le_max_left _ _, max_le (by norm_num) (min_le_left _ _)⟩

/-- Witness for C3 at the mock agent `A1` (speed 180) over five ticks. -/
theorem speed_stays_bounded_witness :
    (160 ≤ agentA1.speed ∧ agentA1.speed ≤ 200) ∧
      160 ≤ (iterTicks agentA1 (fun _ => ⟨0, 0, 0, 0⟩) 5).speed ∧
        (iterTicks agentA1 (fun _ => ⟨0, 0, 0, 0⟩) 5).speed ≤ 200 :=
  ⟨⟨by decide, by decide⟩,
    speed_stays_bounded agentA1 (fun _ => ⟨0, 0, 0, 0⟩) 5 (by decide) (by decide)⟩

/-- C4 counterexample: the mock agent with `heading = 0` starts inside
`[0, 360)`, yet one tick with random draw `0` sets
`heading = (0 + 0*5 - 2.5) % 360 = -2.5`, which is negative: the JS `%`
keeps the sign of the dividend, so the heading does not remain in `[0, 360)`. -/
theorem heading_leaves_range :
    0 ≤ ({ agentA1 with heading := 0 } : Agent).heading ∧
      ({ agentA1 with heading := 0 } : Agent).heading < 360 ∧
        (tickAgent { agentA1 with heading := 0 } ⟨0, 0, 0, 0⟩).heading < 0 := by
  refine ⟨by decide, by decide, ?_⟩
  norm_num [tickAgent, agentA1, jsRem, ratTrunc]

/-- C4 (amended): starting with `heading` in `[0, 360)`, after any number of
ticks the heading stays in the open interval `(-360, 360)`: the JS `%`
operator keeps the dividend's sign, so small negative headings occur, but
the magnitude is always below 360. -/
theorem heading_stays_in_open_interval (a : Agent) (r : ℕ → Rand4) (n : ℕ)
    (h1 : 0 ≤ a.heading) (h2 : a.heading < 360) :
    -360 < (iterTicks a r n).heading ∧ (iterTicks a r n).heading < 360 := by
  induction n with
  | zero => exact ⟨show -360 < a.heading by linarith, h2⟩
  | succ n ih => exact jsRem_bounds _ (by norm_num)

/-- Witness for the amended C4 at the mock agent `A1` (heading 45). -/
theorem heading_stays_in_open_interval_witness :
    (0 ≤ agentA1.heading ∧ agentA1.heading < 360) ∧
      -360 < (iterTicks agentA1 (fun _ => ⟨0, 0, 0, 0⟩) 3).heading ∧
        (iterTicks agentA1 (fun _ => ⟨0, 0, 0, 0⟩) 3).heading < 360 :=
  ⟨⟨by decide, by decide⟩,
    heading_stays_in_open_interval agentA1 (fun _ => ⟨0, 0, 0, 0⟩) 3 (by decide) (by decide)⟩

/-- C2 counterexample: with the same previous state and the same
configuration, one tick evaluated under two different sequences of
`Math.random()` draws produces different agent states: the update reads the
process-wide default random source (no seed is supplied anywhere in the
code), so two independent runs need not produce identical snapshots. -/
theorem tick_depends_on_ambient_randomness :
    tickAgent agentA1 ⟨0, 0, 0, 0⟩ ≠ tickAgent agentA1 ⟨1/2, 1/2, 1/2, 1/2⟩ := by
  intro h
  have hs := congrArg Agent.speed h
  norm_num [tickAgent, agentA1] at hs

/-- C2 (amended): the per-tick update is a deterministic function of the
previous agent list and the `Math.random()` draws it consumes: two runs of
`N` ticks that observe the same draws for every tick below `N` produce
identical agent lists. -/
theorem runs_agree_on_equal_draws (as : List Agent) (r1 r2 : ℕ → ℕ → Rand4) (N : ℕ)
    (h : ∀ t, t < N → ∀ i, r1 t i = r2 t i) :
    runN as r1 N = runN as r2 N := by
  induction N with
  | zero => rfl
  | succ n ih =>
    have hr : runN as r1 n = runN as r2 n :=
      ih fun t ht i => h t (Nat.lt_succ_of_lt ht) i
    show tickAgents (runN as r1 n) (r1 n) = tickAgents (runN as r2 n) (r2 n)
    rw [hr]
    exact tickAgentsFrom_congr (r1 n) (r2 n) (h n (Nat.lt_succ_self n)) 0 _

/-- Witness for the amended C2: two draw oracles that agree on ticks 0 and 1
(but differ later) give the same two-tick run from the mock agents. -/
theorem runs_agree_on_equal_draws_witness :
    (∀ t, t < 2 → ∀ i : ℕ,
        (fun t _ => if t < 2 then (⟨0, 0, 0, 0⟩ : Rand4) else ⟨1, 1, 1, 1⟩) t i
          = (fun _ _ => (⟨0, 0, 0, 0⟩ : Rand4)) t i) ∧
      runN mockAgents (fun t _ => if t < 2 then (⟨0, 0, 0, 0⟩ : Rand4) else ⟨1, 1, 1, 1⟩) 2
        = runN mockAgents (fun _ _ => (⟨0, 0, 0, 0⟩ : Rand4)) 2 :=
  ⟨fun t ht _ => by simp [ht],
    runs_agree_on_equal_draws mockAgents _ _ 2 (fun t ht _ => by simp [ht])⟩

theorem lbLe_iff (a b : Agent) :
    lbLe a b ↔ (a.lap < b.lap ∨ (a.lap = b.lap ∧ a.lapTime ≤ b.lapTime)) := by
  unfold lbLe jsCompare
  by_cases h : a.lap - b.lap ≠ 0
  · rw [if_pos h]
    have hne : a.lap ≠ b.lap := fun he => h (by rw [he, sub_self])
    constructor
    · intro hle
      exact Or.inl (lt_of_le_of_ne (sub_nonpos.mp hle) hne)
    · rintro (h1 | ⟨h1, _⟩)
      · exact sub_nonpos.mpr h1.le
      · exact absurd h1 hne
  · rw [if_neg h]
    push_neg at h
    have he : a.lap = b.lap := sub_eq_zero.mp h
    constructor
    · intro hle
      exact Or.inr ⟨he, sub_nonpos.mp hle⟩
    · rintro (h1 | ⟨_, h2⟩)
      · exact absurd he (ne_of_lt h1)
      · exact sub_nonpos.mpr h2

/-- C1 counterexample: on the mock agents the leaderboard sort puts the
lap-1 agent `A3` first and the lap-2 agents after it, so the standings are
NOT ordered with primary key lap descending; and on an exact tie
(equal lap and lapTime) the stable sort keeps the input order `[B, A]`
rather than breaking the tie by agent id ascending. -/
theorem leaderboard_sort_counterexample :
    ¬ (sortedAgents mockAgents).Pairwise (fun x y => y.lap ≤ x.lap) ∧
      sortedAgents [agentT1, agentT2] = [agentT1, agentT2] ∧
        agentT1.id = "B" ∧ agentT2.id = "A" ∧ agentT1.lap = agentT2.lap ∧
          agentT1.lapTime = agentT2.lapTime := by
  have h12 : lbLe agentA1 agentA2 := by
    rw [lbLe_iff]
    norm_num [agentA1, agentA2]
  have h13 : ¬ lbLe agentA1 agentA3 := by
    rw [lbLe_iff]
    norm_num [agentA1, agentA3]
  have h23 : ¬ lbLe agentA2 agentA3 := by
    rw [lbLe_iff]
    norm_num [agentA2, agentA3]
  have hT : lbLe agentT1 agentT2 := by
    rw [lbLe_iff]
    norm_num [agentT1, agentT2]
  have hsort : sortedAgents mockAgents = [agentA3, agentA1, agentA2] := by
    simp [sortedAgents, mockAgents, List.insertionSort, List.orderedInsert,
      h12, h13, h23]
  refine ⟨?_, ?_, rfl, rfl, by decide, by decide⟩
  · intro hp
    rw [hsort] at hp
    have h31 : agentA1.lap ≤ agentA3.lap :=
      (List.pairwise_cons.mp hp).1 agentA1 (by simp)
    norm_num [agentA1, agentA3] at h31
  · simp [sortedAgents, List.insertionSort, List.orderedInsert, hT]

/-- C1 (amended): for every agent list, the leaderboard sort returns a
permutation of the input that is ordered with primary key lap ASCENDING and
secondary key lapTime ASCENDING (not progress), and the sort is stable:
agents tied on both keys stay in their input order (there is no id
tie-break). -/
theorem leaderboard_sort_characterization (l : List Agent) :
    (sortedAgents l).Pairwise
        (fun x y => x.lap < y.lap ∨ (x.lap = y.lap ∧ x.lapTime ≤ y.lapTime)) ∧
      (sortedAgents l).Perm l ∧
        ∀ a b : Agent, lbLe a b → [a, b].Sublist l → [a, b].Sublist (sortedAgents l) := by
  refine ⟨?_, List.perm_insertionSort lbLe l, ?_⟩
  · have hs := List.sorted_insertionSort lbLe l
    exact List.Pairwise.imp (fun h => (lbLe_iff _ _).mp h) hs
  · intro a b hab hsub
    exact List.pair_sublist_insertionSort hab hsub

/-- Witness for the amended C1 on the two-element list `[A1, A2]`. -/
theorem leaderboard_sort_characterization_witness :
    lbLe agentA1 agentA2 ∧
      [agentA1, agentA2].Sublist [agentA1, agentA2] ∧
        [agentA1, agentA2].Sublist (sortedAgents [agentA1, agentA2]) := by
  have hle : lbLe agentA1 agentA2 := by
    rw [lbLe_iff]
    norm_num [agentA1, agentA2]
  exact ⟨hle, List.Sublist.refl _,
    (leaderboard_sort_characterization [agentA1, agentA2]).2.2 agentA1 agentA2 hle
      (List.Sublist.refl _)⟩

theorem handleZoom_bounds (d : Bool) (z : ℚ) :
    0.5 ≤ handleZoom d z ∧ handleZoom d z ≤ 3 :=
  ⟨le_max_left _ _, max_le (by norm_num) (min_le_left _ _)⟩

/-- C8: starting from zoom factor 1, every sequence of zoom clicks keeps the
factor within `[0.5, 3]`, and whenever the clamp does not apply (the
incremented value already lies in `[0.5, 3]`) a click changes the factor by
exactly `0.2` (in for `+0.2`, out for `-0.2`). -/
theorem zoom_clamped_and_steps_exact :
    (∀ clicks : List Bool, 0.5 ≤ zoomAfter clicks ∧ zoomAfter clicks ≤ 3) ∧
      ∀ (d : Bool) (z : ℚ),
        0.5 ≤ z + (if d then (0.2 : ℚ) else -0.2) →
          z + (if d then (0.2 : ℚ) else -0.2) ≤ 3 →
            handleZoom d z = z + (if d then (0.2 : ℚ) else -0.2) := by
  constructor
  · intro clicks
    suffices h : ∀ (l : List Bool) (z : ℚ), 0.5 ≤ z → z ≤ 3 →
        0.5 ≤ l.foldl (fun z d => handleZoom d z) z ∧
          l.foldl (fun z d => handleZoom d z) z ≤ 3 by
      exact h clicks 1 (by norm_num) (by norm_num)
    intro l
    induction l with
    | nil => exact fun z hz1 hz2 => ⟨hz1, hz2⟩
    | cons d rest ih =>
      exact fun z _ _ => ih (handleZoom d z) (handleZoom_bounds d z).1 (handleZoom_bounds d z).2
  · intro d z h1 h2
    unfold handleZoom
    rw [min_eq_right h2, max_eq_right h1]

/-- Witness for C8: two zoom-in clicks from the initial factor, and one
unclamped zoom-in step from 1 equals exactly 1.2. -/
theorem zoom_clamped_and_steps_exact_witness :
    (0.5 ≤ zoomAfter [true, true] ∧ zoomAfter [true, true] ≤ 3) ∧
      handleZoom true 1 = 1 + (if true then (0.2 : ℚ) else -0.2) :=
  ⟨zoom_clamped_and_steps_exact.1 [true, true],
    zoom_clamped_and_steps_exact.2 true 1 (by norm_num) (by norm_num)⟩

/-- C5 counterexample: removing all three initial agents and clicking Start
makes the modal submit a configuration whose agent list is empty — the
modal performs no validation, so the submitted configuration CAN have an
empty agent list. -/
theorem modal_submits_empty_agent_list :
    (handleStart "monaco"
        (handleRemoveAgent
          (handleRemoveAgent (handleRemoveAgent initialModalAgents "a1") "a2")
          "a3")).agents = [] := by
  decide

/-- C5 (amended): the spec-modelled `start()` rejects an empty agent list,
an unknown track id, and duplicate agent ids with the matching
`ConfigurationError`, and on success holds exactly the configured agents
(no half-initialized state); the modal itself submits its current agent
list unvalidated, which is empty once all agents are removed. -/
theorem startEngine_rejects_invalid_configs (cfg : ModalConfig) :
    (cfg.agents = [] → startEngine cfg = .error .emptyAgentList) ∧
      (cfg.agents ≠ [] → tracks.contains cfg.track = false →
        startEngine cfg = .error .invalidTrack) ∧
      (cfg.agents ≠ [] → tracks.contains cfg.track = true →
        ¬ (cfg.agents.map ModalAgent.id).Nodup →
          startEngine cfg = .error .duplicateAgentId) ∧
      ∀ store, startEngine cfg = .ok store → store = cfg.agents := by
  refine ⟨?_, ?_, ?_, ?_⟩
  · intro h
    simp [startEngine, h]
  · intro h1 h2
    have he : cfg.agents.isEmpty = false := by
      cases hA : cfg.agents with
      | nil => exact absurd hA h1
      | cons a rest => rfl
    have h2' : cfg.track ∉ tracks := by simpa using h2
    simp [startEngine, he, h2']
  · intro h1 h2 h3
    have he : cfg.agents.isEmpty = false := by
      cases hA : cfg.agents with
      | nil => exact absurd hA h1
      | cons a rest => rfl
    have h2' : cfg.track ∈ tracks := by simpa using h2
    simp [startEngine, he, h2', h3]
  · intro store h
    unfold startEngine at h
    split_ifs at h
    exact (Except.ok.inj h).symm

/-- Witness for the amended C5 at the empty configuration the modal can
submit. -/
theorem startEngine_rejects_invalid_configs_witness :
    (ModalConfig.mk "monaco" []).agents = [] ∧
      startEngine (ModalConfig.mk "monaco" []) = .error .emptyAgentList :=
  ⟨rfl, (startEngine_rejects_invalid_configs (ModalConfig.mk "monaco" [])).1 rfl⟩

/-- C6 counterexample: when the simulation is already running the
spec-modelled server answers 409 (not 200), yet the client still sets its
status to `'running'` — so the client does NOT transition to `'running'`
only when the start request actually succeeded. -/
theorem client_runs_despite_409 :
    startStatus true = 409 ∧
      statusAfterStart (Except.ok (startStatus true)) = "running" ∧
        (409 : ℕ) ≠ 200 :=
  ⟨rfl, rfl, by decide⟩

/-- C6 (amended): invoking start while running yields 409 per the
spec-modelled server, but the client's status becomes `'running'` whenever
the fetch resolves at all — for every resolved response regardless of its
status code — and `'error'` exactly on network failure. -/
theorem client_status_characterization :
    (∀ r : Except Unit ℕ, statusAfterStart r = "running" ↔ ∃ code, r = Except.ok code) ∧
      startStatus true = 409 ∧ startStatus false = 200 := by
  refine ⟨fun r => ?_, rfl, rfl⟩
  cases r with
  | error e =>
    cases e
    constructor
    · intro h
      exact absurd h (by decide)
    · rintro ⟨c, hc⟩
      exact absurd hc (by simp)
  | ok c => exact ⟨fun _ => ⟨c, rfl⟩, fun _ => rfl⟩

/-- Witness for the amended C6: a resolved 200 response yields status
`'running'`. -/
theorem client_status_characterization_witness :
    statusAfterStart (Except.ok 200) = "running" :=
  (client_status_characterization.1 (Except.ok 200)).mpr ⟨200, rfl⟩

/-- C9 counterexample: rendering is total on a record whose `lap` is not a
number (every other read field present), so "total only under the
precondition that every agent has a numeric lap and lapTime and a string
status" fails: a numeric `lap` is not necessary — `agent.lap` is plain
interpolation, which renders `undefined` as blank without throwing. -/
theorem render_succeeds_without_numeric_lap :
    renderLeaderboard [lbAgentNoLap]
        = .ok [⟨some "NoLap", none, 60, some 0, some 170, "Active"⟩] ∧
      lbAgentNoLap.lap = none :=
  ⟨rfl, rfl⟩

/-- C9 (amended): rendering the `Leaderboard` succeeds exactly when every
agent record has a `lapTime` and a `status` (the two fields on which methods
are called); in particular the claimed precondition (numeric `lap` and
`lapTime` and string `status`) is sufficient, and on the agent records the
polling client constructs — which carry only id, x, y, color, heading —
rendering throws a `TypeError` (from `lapTime.toFixed`). -/
theorem leaderboard_render_characterization :
    (∀ agents : List LbAgent,
        (∃ rows, renderLeaderboard agents = .ok rows)
          ↔ ∀ a ∈ agents, a.lapTime.isSome ∧ a.status.isSome) ∧
      renderLeaderboard [pollClientAgent] = .error .typeError := by
  constructor
  · intro agents
    induction agents with
    | nil => exact ⟨fun _ => by simp, fun _ => ⟨[], rfl⟩⟩
    | cons a rest ih =>
      constructor
      · rintro ⟨rows, hrows⟩
        intro b hb
        rcases List.mem_cons.mp hb with hb | hb
        · subst hb
          cases ht : b.lapTime with
          | none =>
            rw [renderLeaderboard, renderRow, ht] at hrows
            simp [Bind.bind, Except.bind] at hrows
          | some t =>
            cases hs : b.status with
            | none =>
              rw [renderLeaderboard, renderRow, ht, hs] at hrows
              simp [Bind.bind, Except.bind] at hrows
            | some s => exact ⟨by simp [ht], by simp [hs]⟩
        · have hrest : ∃ rows, renderLeaderboard rest = .ok rows := by
            rw [renderLeaderboard] at hrows
            cases hr : renderRow a with
            | error e =>
              rw [hr] at hrows
              simp [Bind.bind, Except.bind] at hrows
            | ok row =>
              rw [hr] at hrows
              cases hrr : renderLeaderboard rest with
              | error e =>
                rw [hrr] at hrows
                simp [Bind.bind, Except.bind] at hrows
              | ok rows2 => exact ⟨rows2, rfl⟩
          exact (ih.mp hrest) b hb
      · intro h
        obtain ⟨hlt, hst⟩ := h a (List.mem_cons_self a rest)
        obtain ⟨rows, hrows⟩ := ih.mpr fun b hb => h b (List.mem_cons_of_mem a hb)
        obtain ⟨t, ht⟩ := Option.isSome_iff_exists.mp hlt
        obtain ⟨s, hs⟩ := Option.isSome_iff_exists.mp hst
        refine ⟨⟨a.name, a.lap, t, a.delta, a.speed, s⟩ :: rows, ?_⟩
        rw [renderLeaderboard, renderRow, ht, hs, hrows]
        rfl
  · rfl

/-- Witness for the amended C9: the full mock record satisfies the
precondition and renders. -/
theorem leaderboard_render_characterization_witness :
    (∀ a ∈ [lbAgentA1], a.lapTime.isSome ∧ a.status.isSome) ∧
      ∃ rows, renderLeaderboard [lbAgentA1] = .ok rows :=
  ⟨by decide,
    (leaderboard_render_characterization.1 [lbAgentA1]).mpr (by decide)⟩

/-- C10: every poll that fails (network or parse error), returns a null
body, or returns a body without an `agents` field leaves the client's
displayed agents and event log exactly as they were. -/
theorem poll_error_preserves_state (s : ClientState) (r : Except Unit (Option PollData))
    (h : r = .error () ∨ r = .ok none ∨ ∃ d, r = .ok (some d) ∧ d.agents = none) :
    pollStep s r = s := by
  rcases h with h | h | ⟨d, h, hd⟩
  · rw [h]; rfl
  · rw [h]; rfl
  · rw [h]
    show (match d.agents with
      | none => s
      | some l => (⟨l.map toDisplayAgent, d.event_log.getD []⟩ : ClientState)) = s
    rw [hd]

/-- Witness for C10: a failed poll from a nonempty displayed state. -/
theorem poll_error_preserves_state_witness :
    pollStep ⟨[⟨"A1", 150, 150, "#00FFD1", 45⟩], ["race started"]⟩ (Except.error ())
      = ⟨[⟨"A1", 150, 150, "#00FFD1", 45⟩], ["race started"]⟩ :=
  poll_error_preserves_state ⟨[⟨"A1", 150, 150, "#00FFD1", 45⟩], ["race started"]⟩
    (Except.error ()) (Or.inl rfl)
